import Mathlib

/-!
Verification development for the brainrotify generation pipeline.

The Python sources under `backend/` are shallowly embedded here:
strings become `List Char`, floating-point times become `ℚ`, and
fallible collaborator calls become `Except`-valued outcome parameters.
-/

namespace Brainrotify

/-! ## Character classes used by the regular expressions in `video_service.py`

`\w` in Python (ASCII range) is letters, digits and underscore; the services
only ever feed ASCII scripts, so `Char.isAlphanum` is the faithful reading.
-/

/-- A character matched by `\w`: letter, digit or underscore. -/
def isWordChar (c : Char) : Bool := c.isAlphanum || c = '_'

/-- A character matched by the class `[\w']`. -/
def isWordApos (c : Char) : Bool := isWordChar c || c = '\''

/-- A character of the punctuation class `[,.!?:;\-]`. -/
def isPunctChar (c : Char) : Bool :=
  c = ',' || c = '.' || c = '!' || c = '?' || c = ':' || c = ';' || c = '-'

/-! ## Tokenization (`VideoService._generate_caption_timings`, lines 363-375) -/

/-- Helper for `script.strip().split()`: splits a character list into the
maximal runs of non-whitespace characters, dropping all whitespace. -/
def splitWSAux : List Char → List Char → List (List Char)
  | [], acc => if acc.isEmpty then [] else [acc.reverse]
  | c :: cs, acc =>
    if c.isWhitespace then
      if acc.isEmpty then splitWSAux cs [] else acc.reverse :: splitWSAux cs []
    else splitWSAux cs (c :: acc)

/-- `script.strip().split()` from Python. -/
def splitWS (s : List Char) : List (List Char) := splitWSAux s []

/-- The test `re.match(r"^[\w']+[,.!?:;\-]*$", group)`: one or more word or
apostrophe characters followed by zero or more punctuation characters.
Because the two classes are disjoint the greedy scan is exact. -/
def isWordPunctGroup (g : List Char) : Bool :=
  !(g.takeWhile isWordApos).isEmpty && (g.dropWhile isWordApos).all isPunctChar

/-- `re.findall(r"[\w']+|[^\w\s]", group)`: maximal `[\w']` runs become one
token, any other non-whitespace character becomes a single-character token,
whitespace is skipped. The accumulator holds the current `[\w']` run. -/
def findallAux : List Char → List Char → List (List Char)
  | [], acc => if acc.isEmpty then [] else [acc.reverse]
  | c :: cs, acc =>
    if isWordApos c then findallAux cs (c :: acc)
    else
      let pre := if acc.isEmpty then [] else [acc.reverse]
      if !isWordChar c && !c.isWhitespace then pre ++ [c] :: findallAux cs []
      else pre ++ findallAux cs []

/-- The Strategy A tokenizer from `_generate_caption_timings`: split the
script on whitespace; a group matching `^[\w']+[,.!?:;\-]*$` is kept whole
(one token, trailing punctuation attached), any other group is re-split with
`re.findall(r"[\w']+|[^\w\s]", group)`. -/
def tokenizeScript (s : List Char) : List (List Char) :=
  (splitWS s).flatMap (fun g => if isWordPunctGroup g then [g] else findallAux g [])

/-- The test `re.match(r'^[,.!?:;\-]$', word)`: a single punctuation mark. -/
def isSinglePunct : List Char → Bool
  | [c] => isPunctChar c
  | _ => false

/-- The test `word in ".!?"` applied to a single-punctuation token. -/
def isEOSPunct (w : List Char) : Bool :=
  w = ['.'] || w = ['!'] || w = ['?']

/-! ## Strategy A weights and timings (`_generate_caption_timings`, lines 380-442) -/

/-- The per-token weight from the `total_word_weights` loop: punctuation
counts 0.5, words of length at most 2 count 0.7, length at most 4 counts 0.9,
longer words count `1.0 + min(0.5, (len-5)*0.1)`. -/
def tokenWeight (w : List Char) : ℚ :=
  if isSinglePunct w then 1/2
  else if w.length ≤ 2 then 7/10
  else if w.length ≤ 4 then 9/10
  else 1 + min (1/2) (((w.length - 5 : ℕ) : ℚ) * (1/10))

/-- The per-token duration multiplier from the timing loop: like
`tokenWeight` except that a single end-of-sentence mark (`.` `!` `?`)
gets 0.8 instead of 0.5. -/
def tokenDurMult (w : List Char) : ℚ :=
  if isSinglePunct w then
    if isEOSPunct w then 8/10 else 1/2
  else if w.length ≤ 2 then 7/10
  else if w.length ≤ 4 then 9/10
  else 1 + min (1/2) (((w.length - 5 : ℕ) : ℚ) * (1/10))

/-- One word-level caption entry (`words_meta` element / aligned word). -/
structure CaptionEvent where
  word : List Char
  startSec : ℚ
  endSec : ℚ
  highlighted : Bool
deriving Repr, DecidableEq

/-- Sum of `tokenWeight` over the token list (`total_word_weights`). -/
def totalWordWeights (toks : List (List Char)) : ℚ :=
  (toks.map tokenWeight).sum

/-- The timing loop of `_generate_caption_timings`: walk the tokens with a
running clock `t` and a running index `i`; each token lasts
`base * tokenDurMult`, and is highlighted iff its index is divisible by 4
and it is not a single punctuation mark. -/
def buildWordsMeta (base : ℚ) : List (List Char) → ℕ → ℚ → List CaptionEvent
  | [], _, _ => []
  | w :: rest, i, t =>
    let d := base * tokenDurMult w
    { word := w, startSec := t, endSec := t + d,
      highlighted := (i % 4 == 0) && !isSinglePunct w }
      :: buildWordsMeta base rest (i + 1) (t + d)

/-- `base_word_duration = duration / total_word_weights if total_word_weights > 0 else 0.3`. -/
def strategyABase (script : List Char) (duration : ℚ) : ℚ :=
  if 0 < totalWordWeights (tokenizeScript script) then
    duration / totalWordWeights (tokenizeScript script)
  else 3/10

/-- `_generate_caption_timings(script, duration)` flattened to its word
events: tokenize, compute the base duration, then run the timing loop;
`[]` when the script has no tokens. -/
def strategyAWords (script : List Char) (duration : ℚ) : List CaptionEvent :=
  if (tokenizeScript script).isEmpty then []
  else buildWordsMeta (strategyABase script duration) (tokenizeScript script) 0 0

/-- One caption segment as packaged by the Python service
(`{"start": .., "end": .., "words": ..}`). -/
structure CaptionSegment where
  segStart : ℚ
  segEnd : ℚ
  words : List CaptionEvent
deriving Repr, DecidableEq

/-- `_generate_caption_timings` proper: the single segment covering
`[0, duration]`, or `[]` for a script with no tokens. -/
def generateCaptionTimings (script : List Char) (duration : ℚ) :
    List CaptionSegment :=
  if (tokenizeScript script).isEmpty then []
  else [⟨0, duration, strategyAWords script duration⟩]

/-- The end of the last emitted event (the timeline's total span; 0 for an
empty timeline). -/
def timelineSpanEnd (evs : List CaptionEvent) : ℚ :=
  (evs.getLast?.map (·.endSec)).getD 0

/-! ## Strategy B: ASR alignment
(`VideoService._align_transcription_with_script`, lines 191-281, and
`_word_similarity`, lines 283-313)

`difflib.SequenceMatcher(None, w1, w2).ratio()` is Python standard-library
code, not part of this repository; it is abstracted as a `ratio` parameter
(the spec calls it "a normalized edit/sequence-similarity ratio"). -/

/-- One word of the ASR transcript (`whisper_words` element). -/
structure TranscribedWord where
  text : List Char
  startSec : ℚ
  endSec : ℚ
deriving Repr, DecidableEq

/-- `s.lower()`. -/
def toLowerList (w : List Char) : List Char := w.map Char.toLower

/-- `re.sub(r"[^\w']", '', word.lower())`: lowercase, then keep only word
characters and apostrophes. -/
def stripNonWord (w : List Char) : List Char :=
  (toLowerList w).filter isWordApos

/-- `_word_similarity(word1, word2)`, with the `SequenceMatcher.ratio` call
abstracted as `ratio`: 0 on an empty argument, 1 on exact equality, binary
equality after stripping for words of length at most 2, else `ratio` on the
stripped words. -/
def wordSimilarity (ratio : List Char → List Char → ℚ) (w1 w2 : List Char) : ℚ :=
  if w1.isEmpty || w2.isEmpty then 0
  else if w1 = w2 then 1
  else
    let u1 := stripNonWord w1
    let u2 := stripNonWord w2
    if u1.isEmpty || u2.isEmpty then 0
    else if u1.length ≤ 2 || u2.length ≤ 2 then (if u1 = u2 then 1 else 0)
    else ratio u1 u2

/-- `re.findall(r"[\w']+|[,.!?:;\-]", text)` used on the lowercased script:
maximal `[\w']` runs or single punctuation marks; anything else is skipped. -/
def alignFindallAux : List Char → List Char → List (List Char)
  | [], acc => if acc.isEmpty then [] else [acc.reverse]
  | c :: cs, acc =>
    if isWordApos c then alignFindallAux cs (c :: acc)
    else
      let pre := if acc.isEmpty then [] else [acc.reverse]
      if isPunctChar c then pre ++ [c] :: alignFindallAux cs []
      else pre ++ alignFindallAux cs []

/-- The forward search window: transcript positions `trans_idx` to
`trans_idx + min(10, len - trans_idx) - 1`, with their indices. -/
def windowCandidates (ws : List TranscribedWord) (ti : ℕ) :
    List (ℕ × TranscribedWord) :=
  ((ws.drop ti).take 10).enum.map (fun p => (ti + p.1, p.2))

/-- The fold of the best-match search: walk the window carrying the current
`(best_match_idx, best_match_score)` pair, replacing it whenever a
candidate's similarity strictly beats both the current best score and the
0.6 threshold. -/
def findBestAux (ratio : List Char → List Char → ℚ) (sw : List Char) :
    List (ℕ × TranscribedWord) → Option (ℕ × TranscribedWord) × ℚ →
    Option (ℕ × TranscribedWord) × ℚ
  | [], acc => acc
  | p :: rest, acc =>
    let s := wordSimilarity ratio sw (toLowerList p.2.text)
    findBestAux ratio sw rest (if acc.2 < s ∧ 3/5 < s then (some p, s) else acc)

/-- The best-match search of `_align_transcription_with_script`: scan the
window starting from score 0 and no candidate. -/
def findBestMatch (ratio : List Char → List Char → ℚ) (sw : List Char)
    (ws : List TranscribedWord) (ti : ℕ) : Option (ℕ × TranscribedWord) :=
  (findBestAux ratio sw (windowCandidates ws ti) (none, 0)).1

/-- `(script_idx % 4 == 0) and not re.match(r'^[,.!?:;\-]$', script_word)`. -/
def alignHighlighted (si : ℕ) (sw : List Char) : Bool :=
  (si % 4 == 0) && !isSinglePunct sw

/-- The cursor loop of `_align_transcription_with_script`: for each script
word, take the best window match's timing and jump the transcript cursor past
it, or on no acceptable match synthesize a 0.2s event at the current
transcript word's start without consuming it. Stops when either cursor is
exhausted. -/
def alignLoop (ratio : List Char → List Char → ℚ) (ws : List TranscribedWord) :
    List (List Char) → ℕ → ℕ → List CaptionEvent
  | [], _, _ => []
  | sw :: rest, si, ti =>
    if ti < ws.length then
      match findBestMatch ratio sw ws ti with
      | some (bi, tw) =>
        { word := sw, startSec := tw.startSec, endSec := tw.endSec,
          highlighted := alignHighlighted si sw }
          :: alignLoop ratio ws rest (si + 1) (bi + 1)
      | none =>
        let tw := ws.getD ti ⟨[], 0, 0⟩
        { word := sw, startSec := tw.startSec, endSec := tw.startSec + 1/5,
          highlighted := alignHighlighted si sw }
          :: alignLoop ratio ws rest (si + 1) ti
    else []

/-- The relation `aligned_words.sort(key=lambda w: w['start'])` sorts by. -/
def startLE (a b : CaptionEvent) : Prop := a.startSec ≤ b.startSec

instance : DecidableRel startLE :=
  fun a b => inferInstanceAs (Decidable (a.startSec ≤ b.startSec))

instance : IsTotal CaptionEvent startLE :=
  ⟨fun a b => le_total a.startSec b.startSec⟩

instance : IsTrans CaptionEvent startLE :=
  ⟨fun _ _ _ h h' => le_trans h h'⟩

/-- Python's stable `list.sort(key=lambda w: w['start'])`, modelled by a
stable insertion sort on the start times. -/
def sortByStart (evs : List CaptionEvent) : List CaptionEvent :=
  List.insertionSort startLE evs

/-- The duration used by the alignment's empty fallback: the transcript's
last end time, or 60 when there is no transcript word. -/
def alignFallbackDuration (ws : List TranscribedWord) : ℚ :=
  match ws.getLast? with
  | some w => w.endSec
  | none => 60

/-- The script tokens seen by the alignment:
`re.findall(r"[\w']+|[,.!?:;\-]", script.lower())`. -/
def alignScriptWords (script : List Char) : List (List Char) :=
  alignFindallAux (toLowerList script) []

/-- `_align_transcription_with_script(whisper_words, script)` flattened to
its word events: tokenize the lowercased script, run the cursor loop, sort
the result by start time; if the alignment produced nothing, fall back to
`_generate_caption_timings` with the fallback duration. -/
def alignTranscriptionWithScript (ratio : List Char → List Char → ℚ)
    (ws : List TranscribedWord) (script : List Char) : List CaptionEvent :=
  if (alignLoop ratio ws (alignScriptWords script) 0 0).isEmpty then
    strategyAWords script (alignFallbackDuration ws)
  else sortByStart (alignLoop ratio ws (alignScriptWords script) 0 0)

/-- Outcome of `_whisper_transcribe_python`: either a raised exception or a
(possibly empty) list of word timings. -/
inductive TranscriptionResult where
  | failed : TranscriptionResult
  | ok : List TranscribedWord → TranscriptionResult
deriving Repr, DecidableEq

/-- `_get_whisper_timestamps(audio_path, script)`: use the alignment when
transcription succeeds with a non-empty word list, otherwise fall back to
`_generate_caption_timings(script, measured_duration)` where the duration is
measured from the audio file. -/
def getWhisperTimestamps (ratio : List Char → List Char → ℚ)
    (tr : TranscriptionResult) (script : List Char) (measuredDuration : ℚ) :
    List CaptionEvent :=
  match tr with
  | .failed => strategyAWords script measuredDuration
  | .ok ws =>
    if ws.isEmpty then strategyAWords script measuredDuration
    else alignTranscriptionWithScript ratio ws script

/-- A trivial similarity-ratio instantiation, used to build concrete runs of
the alignment (the concrete runs below only exercise the exact-equality
branch of `_word_similarity`, so the instantiation is never consulted). -/
def zeroRatio : List Char → List Char → ℚ := fun _ _ => 0

/-! ## Publication retry (`ipfs_service.py`)

`upload_file` and `upload_json` are decorated with
`@retry(stop=stop_after_attempt(3), wait=wait_exponential(multiplier=1, min=2, max=10))`.
tenacity's default `retry` predicate retries on ANY exception; only the
attempt bound matters for the claims, so waiting times are not modelled. -/

/-- Failure modes of one Pinata upload attempt. -/
inductive UploadError where
  | transient : UploadError
  | malformed : UploadError
deriving Repr, DecidableEq

/-- tenacity `@retry(stop=stop_after_attempt(3))` around an upload call:
`attempt k` is the outcome of the k-th attempt (0-based). Any raised
exception triggers a retry until the third attempt, whose outcome is final.
Returns the final outcome and the number of attempts made. -/
def retryStopAfter3 (attempt : ℕ → Except UploadError String) :
    Except UploadError String × ℕ :=
  match attempt 0 with
  | .ok u => (.ok u, 1)
  | .error _ =>
    match attempt 1 with
    | .ok u => (.ok u, 2)
    | .error _ => (attempt 2, 3)

/-! ## The pipeline orchestrator (`GenerationService.generate_content`)

Each collaborator call is abstracted by its outcome; the audio file handle
and image paths are abstract. The `RunLog` records how often each
collaborator and each cleanup routine was invoked during the run. -/

/-- Outcomes of the collaborator calls made by one pipeline run. -/
structure StageOutcomes where
  scriptResult : Except Unit (List Char)
  ttsResult : Except Unit ℚ
  imagesResult : Except Unit (List ℕ)
  videoResult : Except Unit Unit
  thumbUpload : ℕ → Except UploadError String
  videoUpload : ℕ → Except UploadError String
  jsonUpload : ℕ → Except UploadError String

/-- Invocation counts and artifact bookkeeping of one pipeline run.
Audio and images live in the Venice service's temp directory and are removed
by `VeniceService.cleanup`; the rendered video lives in the video service's
temp directory and is removed only by `VideoService.cleanup`. -/
structure RunLog where
  scriptCalls : ℕ
  ttsCalls : ℕ
  imagesCalls : ℕ
  requestedImageCount : Option ℤ
  videoCalls : ℕ
  thumbUploadAttempts : ℕ
  videoUploadAttempts : ℕ
  jsonUploadAttempts : ℕ
  veniceCleanupCalls : ℕ
  videoCleanupCalls : ℕ
  videoArtifactRemains : Bool
deriving Repr, DecidableEq

/-- The dictionary returned by `generate_content`. -/
structure PipelineResult where
  metadataUri : String
  videoUri : String
  script : List Char
  thumbnailUri : Option String
deriving Repr, DecidableEq

/-- Python `int()` on a rational: truncation toward zero. -/
def ratTrunc (q : ℚ) : ℤ := if 0 ≤ q then ⌊q⌋ else ⌈q⌉

/-- `max(1, int(audio_duration / 10) + 1)` from `generate_content`. -/
def imageCountOf (d : ℚ) : ℤ := max 1 (ratTrunc (d / 10) + 1)

/-- `GenerationService.generate_content`, with collaborator outcomes supplied
by `o`. Mirrors the `try`/`except` of the source: any stage failure jumps to
the handler, which calls `self.venice_service.cleanup()` and re-raises; the
success path also calls only `venice_service.cleanup()` (the
`video_service.cleanup()` call is commented out in the source on both paths).
The script is passed to TTS without any emptiness check. -/
def generateContent (o : StageOutcomes) (imageCountArg : Option ℤ) :
    Except Unit PipelineResult × RunLog :=
  match o.scriptResult with
  | .error _ => (.error (), ⟨1, 0, 0, none, 0, 0, 0, 0, 1, 0, false⟩)
  | .ok script =>
    match o.ttsResult with
    | .error _ => (.error (), ⟨1, 1, 0, none, 0, 0, 0, 0, 1, 0, false⟩)
    | .ok audioDuration =>
      let imageCount : ℤ :=
        match imageCountArg with
        | some n => n
        | none => imageCountOf audioDuration
      match o.imagesResult with
      | .error _ =>
        (.error (), ⟨1, 1, 1, some imageCount, 0, 0, 0, 0, 1, 0, false⟩)
      | .ok imageFiles =>
        match o.videoResult with
        | .error _ =>
          (.error (), ⟨1, 1, 1, some imageCount, 1, 0, 0, 0, 1, 0, false⟩)
        | .ok _ =>
          if imageFiles.isEmpty then
            match retryStopAfter3 o.videoUpload with
            | (.error _, vk) =>
              (.error (), ⟨1, 1, 1, some imageCount, 1, 0, vk, 0, 1, 0, true⟩)
            | (.ok videoUri, vk) =>
              match retryStopAfter3 o.jsonUpload with
              | (.error _, jk) =>
                (.error (),
                 ⟨1, 1, 1, some imageCount, 1, 0, vk, jk, 1, 0, true⟩)
              | (.ok metadataUri, jk) =>
                (.ok ⟨metadataUri, videoUri, script, none⟩,
                 ⟨1, 1, 1, some imageCount, 1, 0, vk, jk, 1, 0, true⟩)
          else
            match retryStopAfter3 o.thumbUpload with
            | (.error _, tk) =>
              (.error (), ⟨1, 1, 1, some imageCount, 1, tk, 0, 0, 1, 0, true⟩)
            | (.ok thumbUri, tk) =>
              match retryStopAfter3 o.videoUpload with
              | (.error _, vk) =>
                (.error (),
                 ⟨1, 1, 1, some imageCount, 1, tk, vk, 0, 1, 0, true⟩)
              | (.ok videoUri, vk) =>
                match retryStopAfter3 o.jsonUpload with
                | (.error _, jk) =>
                  (.error (),
                   ⟨1, 1, 1, some imageCount, 1, tk, vk, jk, 1, 0, true⟩)
                | (.ok metadataUri, jk) =>
                  (.ok ⟨metadataUri, videoUri, script, some thumbUri⟩,
                   ⟨1, 1, 1, some imageCount, 1, tk, vk, jk, 1, 0, true⟩)

/-! ## Multiple image generation (`VeniceService.generate_multiple_images`) -/

/-- Outcomes of the collaborator calls made by `generate_multiple_images`.
`promptsResult` is the chat call that produces image prompts: a raised
exception, or `none` when the response has no choices (in which case the
`prompts` variable is never assigned and the loop raises `NameError`), or the
parsed prompt list. `batchImg i` is the i-th in-loop image call: an
exception, or `false` when the response carries no image data (the loop
`continue`s), or `true` when an image file is saved. `singleImg j` is the
j-th call to `generate_image`, which raises on any failure. -/
structure ImgEnv where
  promptsResult : Except Unit (Option (List Unit))
  batchImg : ℕ → Except Unit Bool
  singleImg : ℕ → Except Unit Unit

/-- `while len(prompts) < count: prompts.append(backup)` followed by
`prompts[:count]`. -/
def paddedPrompts (ps : List Unit) (count : ℕ) : List Unit :=
  (ps ++ List.replicate (count - ps.length) ()).take count

/-- The prompt loop: one image call per prompt; a raised exception aborts,
a response without image data is skipped, a saved image contributes its
index as an abstract path. -/
def batchLoop (f : ℕ → Except Unit Bool) : ℕ → ℕ → Except Unit (List ℕ)
  | _, 0 => .ok []
  | i, n + 1 =>
    match f i with
    | .error _ => .error ()
    | .ok false => batchLoop f (i + 1) n
    | .ok true => (batchLoop f (i + 1) n).map (i :: ·)

/-- The shortfall loop: `for i in range(remaining): generate_image(...)`,
each call raising on failure. Abstract paths `500 + j` keep the backfilled
images distinct from the batch ones. -/
def backfillLoop (g : ℕ → Except Unit Unit) : ℕ → ℕ → Except Unit (List ℕ)
  | _, 0 => .ok []
  | j, r + 1 =>
    match g j with
    | .error _ => .error ()
    | .ok _ => (backfillLoop g (j + 1) r).map ((500 + j) :: ·)

/-- The body of the `try` block of `generate_multiple_images`: prompt
generation, the per-prompt image loop over exactly `count` prompts (the
parsed list is padded with backups and truncated to `count`), then the
shortfall loop; `.error` is any raised exception reaching the outer
`except`. -/
def batchResult (env : ImgEnv) (count : ℕ) : Except Unit (List ℕ) :=
  match env.promptsResult with
  | .error _ => .error ()
  | .ok none => .error ()
  | .ok (some ps) =>
    match batchLoop env.batchImg 0 (paddedPrompts ps count).length with
    | .error _ => .error ()
    | .ok files =>
      match backfillLoop env.singleImg 0 (count - files.length) with
      | .error _ => .error ()
      | .ok extra => .ok (files ++ extra)

/-- `generate_multiple_images(content, style, script, count)`: the `try`
body, with any raised exception handled by falling back to a single
`generate_image` call (abstract path 1000), whose own failure propagates. -/
def genMultipleImages (env : ImgEnv) (count : ℕ) : Except Unit (List ℕ) :=
  match batchResult env count with
  | .ok files => .ok files
  | .error _ =>
    match env.singleImg 1000 with
    | .error e => .error e
    | .ok _ => .ok [1000]

/-! ## Derived observations and concrete run inputs -/

/-- The highlighted indices counted over the word events only (punctuation
events excluded), 0-based. -/
def highlightedWordIndices (evs : List CaptionEvent) : List ℕ :=
  ((evs.filter (fun e => !isSinglePunct e.word)).enum.filter
    (fun p => p.2.highlighted)).map (·.1)

/-- A run in which every collaborator call succeeds. -/
def allOkOutcomes : StageOutcomes :=
  ⟨.ok "hi".toList, .ok 30, .ok [0, 1, 2], .ok (),
   fun _ => .ok "tUri", fun _ => .ok "vUri", fun _ => .ok "mUri"⟩

/-- A run in which the script collaborator returns empty text and every
later collaborator call succeeds. -/
def emptyScriptOutcomes : StageOutcomes :=
  ⟨.ok [], .ok 30, .ok [0, 1, 2], .ok (),
   fun _ => .ok "tUri", fun _ => .ok "vUri", fun _ => .ok "mUri"⟩

/-- A run whose measured audio duration is 25.4 seconds. -/
def tts254Outcomes : StageOutcomes :=
  ⟨.ok "hi".toList, .ok (127/5), .ok [0, 1, 2], .ok (),
   fun _ => .ok "tUri", fun _ => .ok "vUri", fun _ => .ok "mUri"⟩

/-- An upload whose first attempt fails with a malformed response and whose
second attempt succeeds. -/
def malformedThenOk : ℕ → Except UploadError String :=
  fun n => if n = 0 then .error .malformed else .ok "u"

/-- An image-generation environment in which the prompt call parses two
prompts and every image call succeeds. -/
def envTwoOk : ImgEnv :=
  ⟨.ok (some [(), ()]), fun _ => .ok true, fun _ => .ok ()⟩

/-! ## Supporting lemmas -/

lemma tokenWeight_pos (w : List Char) : 0 < tokenWeight w := by
  unfold tokenWeight
  split
  · norm_num
  split
  · norm_num
  split
  · norm_num
  · have h0 : (0:ℚ) ≤ min (1/2) (((w.length - 5 : ℕ) : ℚ) * (1/10)) :=
      le_min (by norm_num) (by positivity)
    linarith

lemma tokenDurMult_pos (w : List Char) : 0 < tokenDurMult w := by
  unfold tokenDurMult
  split
  · split <;> norm_num
  split
  · norm_num
  split
  · norm_num
  · have h0 : (0:ℚ) ≤ min (1/2) (((w.length - 5 : ℕ) : ℚ) * (1/10)) :=
      le_min (by norm_num) (by positivity)
    linarith

lemma tokenDurMult_eq_weight {w : List Char} (h : isEOSPunct w = false) :
    tokenDurMult w = tokenWeight w := by
  simp [tokenDurMult, tokenWeight, h]

lemma totalWordWeights_pos {toks : List (List Char)} (h : toks ≠ []) :
    0 < totalWordWeights toks := by
  unfold totalWordWeights
  apply List.sum_pos
  · intro a ha
    obtain ⟨w, _, rfl⟩ := List.mem_map.mp ha
    exact tokenWeight_pos w
  · simpa using h

lemma strategyABase_pos {script : List Char} {D : ℚ} (hD : 0 < D) :
    0 < strategyABase script D := by
  unfold strategyABase
  split
  · exact div_pos hD ‹_›
  · norm_num

lemma timelineSpanEnd_cons_of_ne_nil {l : List CaptionEvent} (h : l ≠ [])
    (e : CaptionEvent) : timelineSpanEnd (e :: l) = timelineSpanEnd l := by
  cases l with
  | nil => exact absurd rfl h
  | cons x xs => simp [timelineSpanEnd, List.getLast?_cons_cons]

lemma buildWordsMeta_ne_nil {base : ℚ} {toks : List (List Char)} {i : ℕ} {t : ℚ}
    (h : toks ≠ []) : buildWordsMeta base toks i t ≠ [] := by
  cases toks with
  | nil => exact absurd rfl h
  | cons w rest => rw [buildWordsMeta]; simp

lemma buildWordsMeta_spanEnd (base : ℚ) (toks : List (List Char)) :
    ∀ (i : ℕ) (t : ℚ), toks ≠ [] →
      timelineSpanEnd (buildWordsMeta base toks i t)
        = t + base * (toks.map tokenDurMult).sum := by
  induction toks with
  | nil => intro i t h; exact absurd rfl h
  | cons w rest ih =>
    intro i t _
    cases rest with
    | nil =>
      simp [buildWordsMeta, timelineSpanEnd]
    | cons w2 rest2 =>
      have h2 : (w2 :: rest2 : List (List Char)) ≠ [] := by simp
      rw [buildWordsMeta]
      rw [timelineSpanEnd_cons_of_ne_nil (buildWordsMeta_ne_nil h2)]
      rw [ih (i+1) (t + base * tokenDurMult w) h2]
      simp
      ring


lemma buildWordsMeta_good (base : ℚ) (hb : 0 < base) (toks : List (List Char)) :
    ∀ (i : ℕ) (t : ℚ),
      (∀ e ∈ buildWordsMeta base toks i t, t ≤ e.startSec ∧ e.startSec < e.endSec)
      ∧ List.Chain' startLE (buildWordsMeta base toks i t) := by
  induction toks with
  | nil => intro i t; simp [buildWordsMeta]
  | cons w rest ih =>
    intro i t
    have hd : 0 < base * tokenDurMult w := mul_pos hb (tokenDurMult_pos w)
    obtain ⟨ih1, ih2⟩ := ih (i+1) (t + base * tokenDurMult w)
    constructor
    · intro e he
      rw [buildWordsMeta] at he
      simp only [List.mem_cons] at he
      rcases he with rfl | he
      · exact ⟨le_refl _, by simp; linarith⟩
      · obtain ⟨h1, h2⟩ := ih1 e he
        exact ⟨by linarith, h2⟩
    · rw [buildWordsMeta]
      rw [List.chain'_cons']
      refine ⟨?_, ih2⟩
      intro b hb'
      have hbmem := List.mem_of_mem_head? hb'
      have := (ih1 b hbmem).1
      show startLE _ b
      unfold startLE
      simp only []
      linarith

lemma buildWordsMeta_getElem? (base : ℚ) (toks : List (List Char)) :
    ∀ (i k : ℕ) (t : ℚ) (e : CaptionEvent),
      (buildWordsMeta base toks i t)[k]? = some e →
      e.highlighted = (((i + k) % 4 == 0) && !isSinglePunct e.word) := by
  induction toks with
  | nil => intro i k t e h; simp [buildWordsMeta] at h
  | cons w rest ih =>
    intro i k t e h
    cases k with
    | zero =>
      rw [buildWordsMeta] at h
      simp only [List.getElem?_cons_zero, Option.some.injEq] at h
      subst h
      simp
    | succ k' =>
      rw [buildWordsMeta] at h
      simp only [List.getElem?_cons_succ] at h
      have := ih (i+1) k' (t + base * tokenDurMult w) e h
      rw [this]
      congr 2
      omega


lemma findBestAux_mem (ratio : List Char → List Char → ℚ) (sw : List Char) :
    ∀ (l : List (ℕ × TranscribedWord)) (acc : Option (ℕ × TranscribedWord) × ℚ)
      (p : ℕ × TranscribedWord),
      (findBestAux ratio sw l acc).1 = some p → acc.1 = some p ∨ p ∈ l := by
  intro l
  induction l with
  | nil => intro acc p h; exact Or.inl h
  | cons q rest ih =>
    intro acc p h
    rw [findBestAux] at h
    rcases ih _ p h with h' | h'
    · by_cases hc : acc.2 < wordSimilarity ratio sw (toLowerList q.2.text)
          ∧ 3/5 < wordSimilarity ratio sw (toLowerList q.2.text)
      · rw [if_pos hc] at h'
        simp only [Option.some.injEq] at h'
        exact Or.inr (by simp [← h'])
      · rw [if_neg hc] at h'
        exact Or.inl h'
    · exact Or.inr (List.mem_cons_of_mem _ h')

lemma windowCandidates_mem {ws : List TranscribedWord} {ti : ℕ}
    {p : ℕ × TranscribedWord} (h : p ∈ windowCandidates ws ti) : p.2 ∈ ws := by
  unfold windowCandidates at h
  obtain ⟨q, hq, hpq⟩ := List.mem_map.mp h
  have h2 : q.2 ∈ (ws.drop ti).take 10 := by
    have := List.mem_enum_iff_getElem?.mp hq
    exact List.getElem?_mem this
  have h3 : q.2 ∈ ws := List.mem_of_mem_drop (List.mem_of_mem_take h2)
  have : p.2 = q.2 := by rw [← hpq]
  rwa [this]

lemma findBestMatch_mem {ratio : List Char → List Char → ℚ} {sw : List Char}
    {ws : List TranscribedWord} {ti : ℕ} {p : ℕ × TranscribedWord}
    (h : findBestMatch ratio sw ws ti = some p) : p.2 ∈ ws := by
  unfold findBestMatch at h
  rcases findBestAux_mem ratio sw _ _ _ h with h' | h'
  · exact absurd h' (by simp)
  · exact windowCandidates_mem h'

lemma alignLoop_start_lt_end (ratio : List Char → List Char → ℚ)
    {ws : List TranscribedWord} (hws : ∀ w ∈ ws, w.startSec < w.endSec) :
    ∀ (sws : List (List Char)) (si ti : ℕ),
      ∀ e ∈ alignLoop ratio ws sws si ti, e.startSec < e.endSec := by
  intro sws
  induction sws with
  | nil => intro si ti e he; simp [alignLoop] at he
  | cons sw rest ih =>
    intro si ti e he
    rw [alignLoop] at he
    by_cases hti : ti < ws.length
    · rw [if_pos hti] at he
      cases hfb : findBestMatch ratio sw ws ti with
      | some p =>
        obtain ⟨bi, tw⟩ := p
        rw [hfb] at he
        simp only [List.mem_cons] at he
        rcases he with rfl | he
        · exact hws tw (findBestMatch_mem hfb)
        · exact ih (si+1) (bi+1) e he
      | none =>
        rw [hfb] at he
        simp only [List.mem_cons] at he
        rcases he with rfl | he
        · simp only []
          linarith
        · exact ih (si+1) ti e he
    · rw [if_neg hti] at he
      simp at he

lemma sortByStart_mem {evs : List CaptionEvent} {e : CaptionEvent} :
    e ∈ sortByStart evs ↔ e ∈ evs :=
  (List.perm_insertionSort startLE evs).mem_iff

lemma sortByStart_chain' (evs : List CaptionEvent) :
    List.Chain' startLE (sortByStart evs) :=
  (List.sorted_insertionSort startLE evs).chain'

lemma alignFallbackDuration_pos {ws : List TranscribedWord}
    (hws : ∀ w ∈ ws, 0 ≤ w.startSec ∧ w.startSec < w.endSec) :
    0 < alignFallbackDuration ws := by
  unfold alignFallbackDuration
  cases hl : ws.getLast? with
  | none => norm_num
  | some w =>
    have hw : w ∈ ws := List.mem_of_getLast?_eq_some hl
    obtain ⟨h1, h2⟩ := hws w hw
    linarith


lemma batchLoop_length_le (f : ℕ → Except Unit Bool) :
    ∀ (n i : ℕ) (l : List ℕ), batchLoop f i n = .ok l → l.length ≤ n := by
  intro n
  induction n with
  | zero =>
    intro i l h
    rw [batchLoop] at h
    simp only [Except.ok.injEq] at h
    subst h
    simp
  | succ n' ih =>
    intro i l h
    rw [batchLoop] at h
    cases hf : f i with
    | error e => rw [hf] at h; simp at h
    | ok b =>
      rw [hf] at h
      cases b with
      | false => exact le_trans (ih (i+1) l h) (Nat.le_succ n')
      | true =>
        cases hr : batchLoop f (i+1) n' with
        | error e => rw [hr] at h; simp [Except.map] at h
        | ok l' =>
          rw [hr] at h
          simp only [Except.map, Except.ok.injEq] at h
          subst h
          simpa using ih (i+1) l' hr

lemma backfillLoop_length (g : ℕ → Except Unit Unit) :
    ∀ (r j : ℕ) (l : List ℕ), backfillLoop g j r = .ok l → l.length = r := by
  intro r
  induction r with
  | zero =>
    intro j l h
    rw [backfillLoop] at h
    simp only [Except.ok.injEq] at h
    subst h
    rfl
  | succ r' ih =>
    intro j l h
    rw [backfillLoop] at h
    cases hg : g j with
    | error e => rw [hg] at h; simp at h
    | ok u =>
      rw [hg] at h
      cases hr : backfillLoop g (j+1) r' with
      | error e => rw [hr] at h; simp [Except.map] at h
      | ok l' =>
        rw [hr] at h
        simp only [Except.map, Except.ok.injEq] at h
        subst h
        simpa using ih (j+1) l' hr

lemma paddedPrompts_length (ps : List Unit) (count : ℕ) :
    (paddedPrompts ps count).length = count := by
  simp [paddedPrompts]
  omega

lemma retryStopAfter3_le (attempt : ℕ → Except UploadError String) :
    (retryStopAfter3 attempt).2 ≤ 3 := by
  unfold retryStopAfter3
  cases attempt 0 with
  | ok u => simp
  | error e =>
    cases attempt 1 with
    | ok u => simp
    | error e2 => simp

lemma generateContent_log (o : StageOutcomes) (arg : Option ℤ) :
    (generateContent o arg).2.veniceCleanupCalls = 1
    ∧ (generateContent o arg).2.videoCleanupCalls = 0
    ∧ (generateContent o arg).2.scriptCalls = 1
    ∧ (generateContent o arg).2.ttsCalls ≤ 1
    ∧ (generateContent o arg).2.imagesCalls ≤ 1
    ∧ (generateContent o arg).2.videoCalls ≤ 1
    ∧ (generateContent o arg).2.thumbUploadAttempts ≤ 3
    ∧ (generateContent o arg).2.videoUploadAttempts ≤ 3
    ∧ (generateContent o arg).2.jsonUploadAttempts ≤ 3 := by
  have hT := retryStopAfter3_le o.thumbUpload
  have hV := retryStopAfter3_le o.videoUpload
  have hJ := retryStopAfter3_le o.jsonUpload
  unfold generateContent
  repeat' split <;> try simp_all


/-! ## Claim theorems -/

lemma batchResult_ok_length {env : ImgEnv} {count : ℕ} {l : List ℕ}
    (h : batchResult env count = .ok l) : l.length = count := by
  unfold batchResult at h
  cases hp : env.promptsResult with
  | error e => simp only [hp] at h; exact Except.noConfusion h
  | ok op =>
    cases op with
    | none => simp only [hp] at h; exact Except.noConfusion h
    | some ps =>
      simp only [hp] at h
      cases hb : batchLoop env.batchImg 0 (paddedPrompts ps count).length with
      | error e => simp only [hb] at h; exact Except.noConfusion h
      | ok files =>
        simp only [hb] at h
        cases hbf : backfillLoop env.singleImg 0 (count - files.length) with
        | error e => simp only [hbf] at h; exact Except.noConfusion h
        | ok extra =>
          simp only [hbf, Except.ok.injEq] at h
          subst h
          have h1 : files.length ≤ count := by
            have := batchLoop_length_le env.batchImg _ 0 files hb
            rwa [paddedPrompts_length] at this
          have h2 : extra.length = count - files.length :=
            backfillLoop_length env.singleImg _ 0 extra hbf
          simp [h2]
          omega

lemma strategyAWords_good {script : List Char} {D : ℚ} (hD : 0 < D) :
    List.Chain' startLE (strategyAWords script D)
    ∧ ∀ e ∈ strategyAWords script D, e.startSec < e.endSec := by
  unfold strategyAWords
  split
  · simp
  · obtain ⟨h1, h2⟩ :=
      buildWordsMeta_good _ (strategyABase_pos hD) (tokenizeScript script) 0 0
    exact ⟨h2, fun e he => (h1 e he).2⟩

lemma align_good (ratio : List Char → List Char → ℚ) (ws : List TranscribedWord)
    (script : List Char)
    (hws : ∀ w ∈ ws, 0 ≤ w.startSec ∧ w.startSec < w.endSec) :
    List.Chain' startLE (alignTranscriptionWithScript ratio ws script)
    ∧ ∀ e ∈ alignTranscriptionWithScript ratio ws script,
        e.startSec < e.endSec := by
  unfold alignTranscriptionWithScript
  split
  · exact strategyAWords_good (alignFallbackDuration_pos hws)
  · refine ⟨sortByStart_chain' _, ?_⟩
    intro e he
    rw [sortByStart_mem] at he
    exact alignLoop_start_lt_end ratio (fun w hw => (hws w hw).2) _ 0 0 e he


section ConcreteRuns

attribute [local semireducible] Rat.mul Rat.inv Rat.add Rat.sub

/-- C1 counterexample: on the script `"Hello world."` the tokenizer keeps
the trailing full stop attached to `world`, producing
`["Hello", "world."]` and not the claimed `["Hello", "world", "."]` —
adjacent word and punctuation ARE merged into one token. -/
theorem c1_counterexample :
    tokenizeScript "Hello world.".toList = ["Hello".toList, "world.".toList]
    ∧ tokenizeScript "Hello world.".toList
        ≠ ["Hello".toList, "world".toList, ['.']] := by
  constructor
  · decide
  · decide

/-- C1 amended: on `"Hello world."` with duration 2.0 the tokens are
`["Hello", "world."]` with weights 1.0 and 1.1, the base duration is
`2/2.1 = 20/21`, and the events are `Hello[0, 20/21]` (highlighted) and
`world.[20/21, 2]` (not highlighted). -/
theorem c1_amended :
    tokenizeScript "Hello world.".toList = ["Hello".toList, "world.".toList]
    ∧ tokenWeight "Hello".toList = 1
    ∧ tokenWeight "world.".toList = 11/10
    ∧ strategyABase "Hello world.".toList 2 = 20/21
    ∧ strategyAWords "Hello world.".toList 2 =
        [⟨"Hello".toList, 0, 20/21, true⟩, ⟨"world.".toList, 20/21, 2, false⟩] := by
  refine ⟨by decide, by decide, by decide, by decide, by decide⟩

/-- C2 counterexample: on the script `"a ."` with duration 2.0 the emitted
span is 2.5 (the standalone `.` is weighted 0.5 but timed 0.8), which is not
within 1e-6 relative tolerance of 2.0. -/
theorem c2_counterexample :
    timelineSpanEnd (strategyAWords "a .".toList 2) = 5/2
    ∧ ¬ |timelineSpanEnd (strategyAWords "a .".toList 2) - 2|
          ≤ 2 * (1/1000000) := by
  constructor
  · decide
  · decide

/-- C3 counterexample: a transcript word with coinciding start and end times
(permitted by the TranscribedWord model, which only requires non-decreasing
starts) is copied verbatim by the alignment, producing an event with
`start = end`, violating `start < end`. -/
theorem c3_counterexample :
    ¬ ∀ e ∈ alignTranscriptionWithScript zeroRatio
        [⟨"hello".toList, 1, 1⟩] "hello".toList,
        e.startSec < e.endSec := by
  decide

/-- C9 counterexample: on the script `"a . b c d e"` (duration 3) the
highlighted word-token indices counted with punctuation excluded are
`[0, 3]`, not `{i : i mod 4 = 0} = [0, 4]`: the modulo-4 rule is applied to
the full token index including punctuation. -/
theorem c9_counterexample :
    highlightedWordIndices (strategyAWords "a . b c d e".toList 3) = [0, 3]
    ∧ highlightedWordIndices (strategyAWords "a . b c d e".toList 3)
        ≠ (List.range ((strategyAWords "a . b c d e".toList 3).filter
            (fun e => !isSinglePunct e.word)).length).filter
            (fun i => i % 4 == 0) := by
  constructor
  · decide
  · decide

end ConcreteRuns


/-- C2 amended: for every script whose tokenization is non-empty and
contains no standalone end-of-sentence mark (`.` `!` `?`) — in particular
every script of word tokens only — the total span of the Strategy A events
equals the audio duration exactly. -/
theorem c2_amended (script : List Char) (D : ℚ)
    (h1 : tokenizeScript script ≠ [])
    (h2 : ∀ w ∈ tokenizeScript script, isEOSPunct w = false) :
    timelineSpanEnd (strategyAWords script D) = D := by
  have htw : 0 < totalWordWeights (tokenizeScript script) :=
    totalWordWeights_pos h1
  have hemp : ¬ (tokenizeScript script).isEmpty = true := by
    simp [List.isEmpty_iff, h1]
  rw [strategyAWords, if_neg hemp]
  rw [buildWordsMeta_spanEnd _ _ _ _ h1]
  have hmap : (tokenizeScript script).map tokenDurMult
      = (tokenizeScript script).map tokenWeight :=
    List.map_congr_left (fun w hw => tokenDurMult_eq_weight (h2 w hw))
  rw [hmap]
  show 0 + strategyABase script D * totalWordWeights (tokenizeScript script) = D
  unfold strategyABase
  rw [if_pos htw, zero_add, div_mul_cancel₀ _ (ne_of_gt htw)]

/-- C2 witness: the word-only script `"hello there"` with duration 3. -/
theorem c2_witness :
    timelineSpanEnd (strategyAWords "hello there".toList 3) = 3 :=
  c2_amended "hello there".toList 3 (by decide) (by decide)

/-- C3 amended: Strategy A events (for a positive audio duration) have
non-decreasing starts and `start < end`; Strategy B events have
non-decreasing starts, and additionally `start < end` provided every
transcript word has a non-negative start strictly below its end. -/
theorem c3_amended :
    (∀ (script : List Char) (D : ℚ), 0 < D →
      List.Chain' startLE (strategyAWords script D)
      ∧ ∀ e ∈ strategyAWords script D, e.startSec < e.endSec)
    ∧ ∀ (ratio : List Char → List Char → ℚ) (ws : List TranscribedWord)
        (script : List Char),
        (∀ w ∈ ws, 0 ≤ w.startSec ∧ w.startSec < w.endSec) →
        List.Chain' startLE (alignTranscriptionWithScript ratio ws script)
        ∧ ∀ e ∈ alignTranscriptionWithScript ratio ws script,
            e.startSec < e.endSec :=
  ⟨fun _ _ hD => strategyAWords_good hD,
   fun ratio ws script hws => align_good ratio ws script hws⟩

/-- C3 witness: a Strategy A run on `"hi there"` (duration 2) and a
Strategy B run on script `"hello"` with transcript word `hello[0,1]`. -/
theorem c3_witness :
    (List.Chain' startLE (strategyAWords "hi there".toList 2)
      ∧ ∀ e ∈ strategyAWords "hi there".toList 2, e.startSec < e.endSec)
    ∧ (List.Chain' startLE (alignTranscriptionWithScript zeroRatio
          [⟨"hello".toList, 0, 1⟩] "hello".toList)
      ∧ ∀ e ∈ alignTranscriptionWithScript zeroRatio
          [⟨"hello".toList, 0, 1⟩] "hello".toList, e.startSec < e.endSec) :=
  ⟨c3_amended.1 "hi there".toList 2 (by norm_num),
   c3_amended.2 zeroRatio [⟨"hello".toList, 0, 1⟩] "hello".toList
     (by intro w hw
         rw [List.mem_singleton] at hw
         subst hw
         exact ⟨le_refl 0, by norm_num⟩)⟩

/-- C6 confirmed: whenever transcription fails or returns an empty word
list, the caption stage returns exactly the Strategy A heuristic timings
computed from the script and the measured audio duration (and hence no
transcription error leaves the stage). -/
theorem c6_confirmed (ratio : List Char → List Char → ℚ)
    (tr : TranscriptionResult) (script : List Char) (measuredDuration : ℚ)
    (h : tr = .failed ∨ tr = .ok []) :
    getWhisperTimestamps ratio tr script measuredDuration
      = strategyAWords script measuredDuration := by
  rcases h with rfl | rfl <;> rfl

/-- C6 witness: a failed transcription on script `"hi"`, duration 2. -/
theorem c6_witness :
    getWhisperTimestamps zeroRatio .failed "hi".toList 2
      = strategyAWords "hi".toList 2 :=
  c6_confirmed zeroRatio .failed "hi".toList 2 (Or.inl rfl)


/-- C4 counterexample: a fully successful run returns a result, yet the
video-service cleanup is never invoked (the call is commented out in
`generate_content`), so the rendered video artifact survives the run —
cleanup does not remove every ephemeral artifact. -/
theorem c4_counterexample :
    (generateContent allOkOutcomes none).1
      = .ok ⟨"mUri", "vUri", "hi".toList, some "tUri"⟩
    ∧ (generateContent allOkOutcomes none).2.videoCleanupCalls = 0
    ∧ (generateContent allOkOutcomes none).2.videoArtifactRemains = true :=
  ⟨rfl, rfl, rfl⟩

/-- C4 amended: on every exit path (normal completion or any propagated
stage failure) the Venice-service cleanup — which removes the audio and
image artifacts — is invoked exactly once; the video-service cleanup is
never invoked, so the rendered video artifact is not removed. -/
theorem c4_amended (o : StageOutcomes) (arg : Option ℤ) :
    (generateContent o arg).2.veniceCleanupCalls = 1
    ∧ (generateContent o arg).2.videoCleanupCalls = 0 :=
  ⟨(generateContent_log o arg).1, (generateContent_log o arg).2.1⟩

/-- C5 counterexample: a run whose script collaborator returns empty text
still invokes speech synthesis (with the empty script) and completes
successfully — there is no emptiness check and no transition to an error
state. -/
theorem c5_counterexample :
    (generateContent emptyScriptOutcomes none).2.ttsCalls = 1
    ∧ (generateContent emptyScriptOutcomes none).1
        = .ok ⟨"mUri", "vUri", [], some "tUri"⟩ :=
  ⟨rfl, rfl⟩

/-- C5 amended: the orchestrator performs no emptiness check on the script:
whenever script generation returns (any text, including empty), speech
synthesis is invoked exactly once with it. -/
theorem c5_amended (o : StageOutcomes) (arg : Option ℤ) (s : List Char)
    (hs : o.scriptResult = .ok s) :
    (generateContent o arg).2.ttsCalls = 1 := by
  unfold generateContent
  simp only [hs]
  repeat' split
  all_goals rfl

/-- C5 witness: the empty-script run. -/
theorem c5_witness : (generateContent emptyScriptOutcomes none).2.ttsCalls = 1 :=
  c5_amended emptyScriptOutcomes none [] rfl

/-- C7 counterexample: an upload whose first attempt raises a malformed
response error is retried by the tenacity wrapper (which retries on any
exception) and succeeds on the second attempt — a non-retriable failure does
not propagate immediately. -/
theorem c7_counterexample :
    malformedThenOk 0 = .error .malformed
    ∧ retryStopAfter3 malformedThenOk = (.ok "u", 2) :=
  ⟨rfl, rfl⟩

/-- C7 amended: publication uploads are attempted at most 3 times (but any
exception, including a malformed response, is retried), and no other
pipeline stage is invoked more than once per run. -/
theorem c7_amended (f : ℕ → Except UploadError String) (o : StageOutcomes)
    (arg : Option ℤ) :
    (retryStopAfter3 f).2 ≤ 3
    ∧ (generateContent o arg).2.scriptCalls ≤ 1
    ∧ (generateContent o arg).2.ttsCalls ≤ 1
    ∧ (generateContent o arg).2.imagesCalls ≤ 1
    ∧ (generateContent o arg).2.videoCalls ≤ 1
    ∧ (generateContent o arg).2.thumbUploadAttempts ≤ 3
    ∧ (generateContent o arg).2.videoUploadAttempts ≤ 3
    ∧ (generateContent o arg).2.jsonUploadAttempts ≤ 3 := by
  obtain ⟨_, _, h3, h4, h5, h6, h7, h8, h9⟩ := generateContent_log o arg
  exact ⟨retryStopAfter3_le f, le_of_eq h3, h4, h5, h6, h7, h8, h9⟩


lemma generateContent_requested (o : StageOutcomes) (s : List Char) (d : ℚ)
    (hs : o.scriptResult = .ok s) (ht : o.ttsResult = .ok d) :
    (generateContent o none).2.requestedImageCount = some (imageCountOf d) := by
  unfold generateContent
  simp only [hs, ht]
  repeat' split
  all_goals rfl

lemma imageCountOf_pos_eq {d : ℚ} (hd : 0 < d) :
    imageCountOf d = max 1 (⌊d / 10⌋ + 1) := by
  unfold imageCountOf ratTrunc
  rw [if_pos (by positivity : (0:ℚ) ≤ d / 10)]

/-- C8 confirmed: when no explicit image count is supplied, the orchestrator
derives `imageCount = max(1, floor(d/10) + 1)` from the measured audio
duration `d > 0`; the derived count is always at least 1, and the spec's
examples hold: 25.4 s gives 3 images and 9.9 s gives 1. -/
theorem c8_confirmed :
    (∀ (o : StageOutcomes) (s : List Char) (d : ℚ),
        o.scriptResult = .ok s → o.ttsResult = .ok d → 0 < d →
        (generateContent o none).2.requestedImageCount
            = some (max 1 (⌊d / 10⌋ + 1))
        ∧ 1 ≤ imageCountOf d)
    ∧ imageCountOf (127/5) = 3 ∧ imageCountOf (99/10) = 1 := by
  refine ⟨?_, ?_, ?_⟩
  · intro o s d hs ht hd
    rw [generateContent_requested o s d hs ht, imageCountOf_pos_eq hd]
    exact ⟨rfl, le_max_left 1 _⟩
  · rw [imageCountOf_pos_eq (by norm_num)]
    norm_num [Int.floor_eq_iff]
  · rw [imageCountOf_pos_eq (by norm_num)]
    norm_num [Int.floor_eq_iff]

/-- C8 witness: the run whose audio lasts 25.4 seconds. -/
theorem c8_witness :
    (generateContent tts254Outcomes none).2.requestedImageCount
        = some (max 1 (⌊(127/5 : ℚ) / 10⌋ + 1))
    ∧ 1 ≤ imageCountOf (127/5) :=
  c8_confirmed.1 tts254Outcomes "hi".toList (127/5) rfl rfl (by norm_num)

/-- C9 amended: a Strategy A event is highlighted exactly when its zero-based
index in the FULL token sequence (punctuation included) is divisible by 4 and
the token is not a single punctuation mark. (The re-indexing with punctuation
excluded, claimed to be equivalent, does not hold; see the counterexample.) -/
theorem c9_amended (script : List Char) (D : ℚ) (k : ℕ) (e : CaptionEvent)
    (h : (strategyAWords script D)[k]? = some e) :
    e.highlighted = ((k % 4 == 0) && !isSinglePunct e.word) := by
  unfold strategyAWords at h
  split at h
  · simp at h
  · have := buildWordsMeta_getElem? _ _ 0 k 0 e h
    simpa using this

/-- C10 confirmed: for every requested count of at least 1, whenever
`generate_multiple_images` returns, it returns a non-empty list: exactly
`count` paths via the batch path (skipped responses are backfilled by
single-image calls), or exactly one path via the exception fallback. -/
theorem c10_confirmed (env : ImgEnv) (count : ℕ) (hc : 1 ≤ count)
    (l : List ℕ) (h : genMultipleImages env count = .ok l) :
    l ≠ [] ∧ (l.length = count ∨ l.length = 1) := by
  unfold genMultipleImages at h
  cases hb : batchResult env count with
  | ok files =>
    simp only [hb, Except.ok.injEq] at h
    subst h
    have := batchResult_ok_length hb
    refine ⟨List.ne_nil_of_length_pos (by omega), Or.inl this⟩
  | error e =>
    simp only [hb] at h
    cases hf : env.singleImg 1000 with
    | error e2 => simp only [hf] at h; exact Except.noConfusion h
    | ok u =>
      simp only [hf, Except.ok.injEq] at h
      subst h
      exact ⟨by simp, Or.inr rfl⟩

/-- C10 witness: two prompts, two successful image calls, count 2. -/
theorem c10_witness :
    ([0, 1] : List ℕ) ≠ []
    ∧ (([0, 1] : List ℕ).length = 2 ∨ ([0, 1] : List ℕ).length = 1) :=
  c10_confirmed envTwoOk 2 (by norm_num) [0, 1] rfl


section ConcreteRunsTwo

attribute [local semireducible] Rat.mul Rat.inv Rat.add Rat.sub

/-- C9 witness: event 0 of the `"Hello world."` run. -/
theorem c9_witness :
    (⟨"Hello".toList, 0, 20/21, true⟩ : CaptionEvent).highlighted
      = ((0 % 4 == 0) && !isSinglePunct "Hello".toList) :=
  c9_amended "Hello world.".toList 2 0 ⟨"Hello".toList, 0, 20/21, true⟩ (by decide)

end ConcreteRunsTwo


end Brainrotify
